import Mathlib

/-!
Verification of the dashboard layout / multi-select / undo subsystem.

The definitions below are a shallow embedding of the TypeScript source:

* `undo_manager.ts` (`pushUndo`, `runUndo`) — the bounded undo stack;
* `apply_selected_panels_layout.ts` (`sortPanelIdsByPosition`,
  `applySelectedPanelsLayout`) — the bulk layout algorithms;
* `use_dashboard_menu_items.tsx` (`prettifyDashboard`) — the auto-grid
  reflow applied to all panels;
* the drag-selection handlers of `DashboardGrid`
  (`rectsIntersect`, `getPanelsInRect`, the mouse-up and click handlers);
* `breakdown_field_name.ts` (`getBreakdownLayerInfo`) and
  `breakdown_field_selector.ts` (`getBreakdownFieldOptions`,
  `setBreakdownField`).

Conventions used throughout the embedding:

* JavaScript objects keyed by strings are modelled as association lists
  `List (String × β)`; `obj[k]` is `List.lookup k`, and both `Map.set`
  and the spread-update `{ ...obj, [k]: v }` are `jsRecordSet`
  (existing keys keep their position, new keys are appended — exactly
  the JS insertion-order semantics).
* A JS `Set` iterated with `[...set]` is modelled as a duplicate-free
  `List`; theorems that need uniqueness carry a `Nodup` hypothesis.
* Asynchronous collaborators living outside this repository
  (`dataViews.get`, `replaceColumn`, `getAvailableOperationsByMetadata`,
  `localeCompare`) are parameters of the embedded functions; a promise
  rejection is an `Except.error`.
* Reference identity of unchanged sub-objects is expressed as equality
  of the corresponding components in the pure model.
-/

/-! ### Undo manager (`undo_manager.ts`) -/

/-- Maximum size of the undo stack (`MAX_UNDO_STACK` in `undo_manager.ts`). -/
def MAX_UNDO_STACK : Nat := 50

/-- State owned by `initializeUndoManager`: the mutable `stack` array of
reversal actions (abstracted over an entry type `α`) and the boolean held by
the `canUndo$` subject. -/
structure UndoState (α : Type) where
  stack : List α
  canUndo : Bool
deriving Repr, DecidableEq

/-- Initial state of `initializeUndoManager`: empty stack, `canUndo$` starts
at `false`. -/
def initialUndoState (α : Type) : UndoState α := ⟨[], false⟩

/-- Embedding of `pushUndo`: if the stack already holds at least
`MAX_UNDO_STACK` entries, `stack.shift()` removes the oldest (first) entry;
then the new entry is appended and `canUndo$.next(true)` is issued. -/
def pushUndo {α : Type} (s : UndoState α) (fn : α) : UndoState α :=
  { stack := (if MAX_UNDO_STACK ≤ s.stack.length then s.stack.drop 1 else s.stack) ++ [fn],
    canUndo := true }

/-- Embedding of `runUndo`: `stack.pop()` removes the most recent (last)
entry; on an empty stack the function returns immediately.  The popped
action is awaited inside `try … finally`, so `canUndo$.next(stack.length > 0)`
runs whether or not the action rejects.  `fails` tells which actions reject;
the returned triple is (state after the call, the action that was run,
whether the returned promise rejects).  The state component never depends on
`fails`, mirroring the `finally` path. -/
def runUndo {α : Type} (fails : α → Bool) (s : UndoState α) :
    UndoState α × Option α × Bool :=
  match s.stack.getLast? with
  | none => (s, none, false)
  | some fn =>
    ({ stack := s.stack.dropLast, canUndo := decide (0 < s.stack.dropLast.length) },
      some fn, fails fn)

/-- Folds a sequence of `pushUndo` calls over a starting state. -/
def pushAll {α : Type} (s : UndoState α) (fns : List α) : UndoState α :=
  fns.foldl pushUndo s

/-- Runs `runUndo` the given number of times, collecting the actions that
were run, in execution order. -/
def runUndos {α : Type} (fails : α → Bool) : Nat → UndoState α → UndoState α × List α
  | 0, s => (s, [])
  | n + 1, s =>
    let step := runUndo fails s
    let rest := runUndos fails n step.1
    (rest.1, step.2.1.toList ++ rest.2)

theorem pushUndo_length_le {α : Type} (s : UndoState α) (fn : α)
    (h : s.stack.length ≤ MAX_UNDO_STACK) :
    (pushUndo s fn).stack.length ≤ MAX_UNDO_STACK := by
  simp only [MAX_UNDO_STACK] at h ⊢
  unfold pushUndo
  simp only [MAX_UNDO_STACK, List.length_append, List.length_cons, List.length_nil]
  split <;> (try simp only [List.length_drop]) <;> omega

theorem pushAll_length_le {α : Type} (s : UndoState α) (fns : List α)
    (h : s.stack.length ≤ MAX_UNDO_STACK) :
    (pushAll s fns).stack.length ≤ MAX_UNDO_STACK := by
  induction fns generalizing s with
  | nil => simpa [pushAll] using h
  | cons f fs ih =>
    have := pushUndo_length_le s f h
    simpa [pushAll, List.foldl_cons] using ih (pushUndo s f) this

set_option maxRecDepth 4000 in
/-- C1: the undo stack never holds more than 50 entries; `pushUndo` evicts
the oldest entry (FIFO) before appending once the stack holds 50; and after
51 pushes, running `runUndo` 50 times runs the reversal actions of pushes 2
through 51 in reverse push order, never the reversal of the first push. -/
theorem undo_stack_bounded_fifo_eviction_lifo_consumption :
    (∀ fns : List Nat, ((pushAll (initialUndoState Nat) fns).stack).length ≤ 50) ∧
    (∀ (s : UndoState Nat) (fn : Nat), MAX_UNDO_STACK ≤ s.stack.length →
      (pushUndo s fn).stack = s.stack.drop 1 ++ [fn]) ∧
    (pushAll (initialUndoState Nat) ((List.range 51).map (· + 1))).stack =
      (List.range 50).map (· + 2) ∧
    (runUndos (fun _ => false) 50
        (pushAll (initialUndoState Nat) ((List.range 51).map (· + 1)))).2 =
      ((List.range 50).map (· + 2)).reverse ∧
    (runUndos (fun _ => false) 50
        (pushAll (initialUndoState Nat) ((List.range 51).map (· + 1)))).1.stack = [] ∧
    1 ∉ (runUndos (fun _ => false) 50
        (pushAll (initialUndoState Nat) ((List.range 51).map (· + 1)))).2 := by
  refine ⟨fun fns => pushAll_length_le _ fns (by simp [initialUndoState]), ?_, ?_, ?_, ?_, ?_⟩
  · intro s fn h
    unfold pushUndo
    simp [if_pos h]
  · decide
  · decide
  · decide
  · decide

/-- Witness for the eviction conjunct of C1 at a concrete 50-entry stack. -/
theorem undo_stack_bounded_fifo_eviction_lifo_consumption_witness :
    MAX_UNDO_STACK ≤ (List.range 50).length ∧
    (pushUndo (⟨List.range 50, true⟩ : UndoState Nat) 99).stack =
      (List.range 50).drop 1 ++ [99] :=
  ⟨by decide,
    undo_stack_bounded_fifo_eviction_lifo_consumption.2.1
      ⟨List.range 50, true⟩ 99 (by decide)⟩

/-- C6: `runUndo` on an empty stack is a no-op (state unchanged, nothing
run); on a non-empty stack it removes the most recent entry and recomputes
`canUndo` from the remaining stack's non-emptiness, with the same resulting
state whether or not the awaited reversal action rejects — the failed entry
is not pushed back. -/
theorem runUndo_pops_lifo_and_recomputes_canUndo :
    (∀ (fails : Nat → Bool) (c : Bool),
      runUndo fails (⟨[], c⟩ : UndoState Nat) = (⟨[], c⟩, none, false)) ∧
    (∀ (fails : Nat → Bool) (l : List Nat) (f : Nat) (c : Bool),
      runUndo fails (⟨l ++ [f], c⟩ : UndoState Nat) =
        (⟨l, decide (0 < l.length)⟩, some f, fails f)) ∧
    (∀ (fails fails' : Nat → Bool) (s : UndoState Nat),
      (runUndo fails s).1 = (runUndo fails' s).1) := by
  refine ⟨fun fails c => rfl, fun fails l f c => ?_, fun fails fails' s => ?_⟩
  · unfold runUndo
    simp
  · unfold runUndo
    cases s.stack.getLast? <;> simp

/-! ### Layout model and bulk layout algorithms
(`apply_selected_panels_layout.ts`, `use_dashboard_menu_items.tsx`) -/

/-- Grid geometry of one panel (`GridData` plus the optional `sectionId`). -/
structure GridData where
  x : Nat
  y : Nat
  w : Nat
  h : Nat
  sectionId : Option String := none
deriving Repr, DecidableEq

/-- One entry of `layout.panels`: the panel type and its grid geometry. -/
structure DashboardPanel where
  type : String
  grid : GridData
deriving Repr, DecidableEq

/-- One entry of `layout.sections`. -/
structure DashboardSection where
  collapsed : Bool
  title : String
  gridY : Nat
deriving Repr, DecidableEq

/-- The canonical layout model (`DashboardLayout`): string-keyed maps are
modelled as association lists in key insertion order. -/
structure DashboardLayout where
  panels : List (String × DashboardPanel)
  sections : List (String × DashboardSection)
  pinnedPanels : List String
deriving Repr, DecidableEq

/-- Number of grid columns (`GRID_COLUMN_COUNT = 48`). -/
def GRID_COLUMN_COUNT : Nat := 48

/-- Prettify cell width (`PRETTIFY_PANEL_WIDTH = 16`). -/
def PRETTIFY_PANEL_WIDTH : Nat := 16

/-- Prettify cell height (`PRETTIFY_PANEL_HEIGHT = 10`). -/
def PRETTIFY_PANEL_HEIGHT : Nat := 10

/-- Prettify panels per row (`PRETTIFY_PANELS_PER_ROW = 3`). -/
def PRETTIFY_PANELS_PER_ROW : Nat := 3

/-- Position key used by `sortPanelIdsByPosition`: `(grid.y, grid.x)` of the
panel, with `{x: 0, y: 0}` as the fallback for an id that is not a key of
`panels` (the `?? {x: 0, y: 0}` / `?? 0` defaults in the comparator). -/
def panelPosKey (panels : List (String × DashboardPanel)) (id : String) : Nat × Nat :=
  match panels.lookup id with
  | some p => (p.grid.y, p.grid.x)
  | none => (0, 0)

/-- Boolean form of the sort comparator of `sortPanelIdsByPosition`:
ascending by `y`, ties broken by `x` (the comparator returns `ya - yb` when
the `y`s differ and `xa - xb` otherwise). -/
def panelPosLe (panels : List (String × DashboardPanel)) (a b : String) : Bool :=
  decide ((panelPosKey panels a).1 < (panelPosKey panels b).1 ∨
    ((panelPosKey panels a).1 = (panelPosKey panels b).1 ∧
      (panelPosKey panels a).2 ≤ (panelPosKey panels b).2))

/-- Embedding of `sortPanelIdsByPosition`: a stable sort of the ids by
`(grid.y, grid.x)`; `Array.prototype.sort` is a stable sort, and a stable
sort with respect to a fixed total preorder has a unique result, so the
stable `insertionSort` computes the same list. -/
def sortPanelIdsByPosition (panelIds : List String)
    (panels : List (String × DashboardPanel)) : List String :=
  panelIds.insertionSort (fun a b => panelPosLe panels a b = true)

/-- The three bulk rearrangement modes (`SelectedPanelsLayoutMode`). -/
inductive SelectedPanelsLayoutMode where
  | header
  | grid
  | side
deriving Repr, DecidableEq

/-- Builds the per-index grid assignments of a `forEach((id, i) => …)` loop:
the `i`-th id of the list is paired with `f i`. -/
def enumAssign (f : Nat → GridData) : List String → List (String × GridData)
  | [] => []
  | id :: rest => (id, f 0) :: enumAssign (fun i => f (i + 1)) rest

/-- Grid rectangles assigned by `applySelectedPanelsLayout` to the sorted
selected ids, per mode (the bodies of the `header` / `grid` / `side`
branches).  Every assigned grid carries `sectionId := targetSectionId`. -/
def layoutAssignments (mode : SelectedPanelsLayoutMode) (targetSectionId : Option String) :
    List String → List (String × GridData)
  | [] => []
  | top :: rest =>
    match mode with
    | .header =>
      let n := rest.length
      let w := if 0 < n then GRID_COLUMN_COUNT / n else GRID_COLUMN_COUNT
      (top, ⟨0, 0, GRID_COLUMN_COUNT, 5, targetSectionId⟩) ::
        enumAssign (fun i =>
          ⟨i * w, 5, if i = n - 1 then GRID_COLUMN_COUNT - (n - 1) * w else w, 10,
            targetSectionId⟩) rest
    | .grid =>
      enumAssign (fun i =>
        ⟨i % PRETTIFY_PANELS_PER_ROW * PRETTIFY_PANEL_WIDTH,
          i / PRETTIFY_PANELS_PER_ROW * PRETTIFY_PANEL_HEIGHT,
          PRETTIFY_PANEL_WIDTH, PRETTIFY_PANEL_HEIGHT, targetSectionId⟩) (top :: rest)
    | .side =>
      (top, ⟨0, 0, 24, 10, targetSectionId⟩) ::
        enumAssign (fun i => ⟨24, i * 5, 24, 5, targetSectionId⟩) rest

/-- Spread-copy of `layout.panels` followed by the per-id overwrites
`newPanels[id] = { ...layout.panels[id], grid: { … } }`: every entry whose
key has an assignment gets its grid replaced, all others stay untouched. -/
def overwritePanels (panels : List (String × DashboardPanel))
    (assignments : List (String × GridData)) : List (String × DashboardPanel) :=
  panels.map (fun e =>
    match assignments.lookup e.1 with
    | some g => (e.1, { e.2 with grid := g })
    | none => e)

/-- Selected ids that are keys of `layout.panels`
(`[...selectedPanelIds].filter((id) => layout.panels[id])`). -/
def filteredSelectedIds (layout : DashboardLayout) (selectedPanelIds : List String) :
    List String :=
  selectedPanelIds.filter (fun id => (layout.panels.lookup id).isSome)

/-- The filtered selected ids in `(y, x)` reading order — the `panelIds`
local of `applySelectedPanelsLayout`. -/
def sortedSelectedIds (layout : DashboardLayout) (selectedPanelIds : List String) :
    List String :=
  sortPanelIdsByPosition (filteredSelectedIds layout selectedPanelIds) layout.panels

/-- Embedding of `applySelectedPanelsLayout`: drops unknown ids, sorts the
rest by position, returns the layout unchanged when none remain, otherwise
rewrites exactly the selected panels' grids per mode, targeting the first
panel's `sectionId`. -/
def applySelectedPanelsLayout (layout : DashboardLayout) (selectedPanelIds : List String)
    (mode : SelectedPanelsLayoutMode) : DashboardLayout :=
  match sortedSelectedIds layout selectedPanelIds with
  | [] => layout
  | top :: rest =>
    let targetSectionId :=
      match layout.panels.lookup top with
      | some p => p.grid.sectionId
      | none => none
    { layout with
        panels := overwritePanels layout.panels
          (layoutAssignments mode targetSectionId (top :: rest)) }

/-- The `panelIds` local of `prettifyDashboard` (`use_dashboard_menu_items.tsx`):
`Object.keys(layout.panels)` sorted by the same `(y, x)` comparator.  The
replacement grid objects built from it have no `sectionId` field, so every
panel moves to the implicit root section, while `sections` is carried over
unchanged. -/
def prettifySortedIds (layout : DashboardLayout) : List String :=
  (layout.panels.map Prod.fst).insertionSort
    (fun a b => panelPosLe layout.panels a b = true)

/-- Embedding of the body of the `prettifyDashboard` callback: all panels
rewritten to the 3-per-row 16×10 cells in sorted order. -/
def prettifyDashboard (layout : DashboardLayout) : DashboardLayout :=
  { layout with
      panels := overwritePanels layout.panels
        (enumAssign (fun i =>
          ⟨i % PRETTIFY_PANELS_PER_ROW * PRETTIFY_PANEL_WIDTH,
            i / PRETTIFY_PANELS_PER_ROW * PRETTIFY_PANEL_HEIGHT,
            PRETTIFY_PANEL_WIDTH, PRETTIFY_PANEL_HEIGHT, none⟩) (prettifySortedIds layout)) }

/-! ### Helper lemmas about lookups, assignments and the sort order -/

theorem lookup_overwritePanels_some (panels : List (String × DashboardPanel))
    (asg : List (String × GridData)) (id : String) (g : GridData)
    (h : asg.lookup id = some g) :
    (overwritePanels panels asg).lookup id =
      (panels.lookup id).map (fun p => { p with grid := g }) := by
  induction panels with
  | nil => simp [overwritePanels]
  | cons e rest ih =>
    obtain ⟨k, p⟩ := e
    by_cases hk : id = k
    · subst hk
      simp [overwritePanels, List.lookup, h]
    · have hbeq : (id == k) = false := beq_false_of_ne hk
      simp only [overwritePanels, List.map_cons] at ih ⊢
      cases hak : asg.lookup k <;>
        simp [List.lookup, hbeq, hak, ih]

theorem lookup_overwritePanels_none (panels : List (String × DashboardPanel))
    (asg : List (String × GridData)) (id : String)
    (h : asg.lookup id = none) :
    (overwritePanels panels asg).lookup id = panels.lookup id := by
  induction panels with
  | nil => simp [overwritePanels]
  | cons e rest ih =>
    obtain ⟨k, p⟩ := e
    by_cases hk : id = k
    · subst hk
      simp [overwritePanels, List.lookup, h]
    · have hbeq : (id == k) = false := beq_false_of_ne hk
      simp only [overwritePanels, List.map_cons] at ih ⊢
      cases hak : asg.lookup k <;>
        simp [List.lookup, hbeq, hak, ih]

theorem lookup_enumAssign_get {l : List String} (hnd : l.Nodup) (f : Nat → GridData)
    (i : Nat) (hi : i < l.length) :
    (enumAssign f l).lookup (l.get ⟨i, hi⟩) = some (f i) := by
  induction l generalizing f i with
  | nil => simp at hi
  | cons a rest ih =>
    cases i with
    | zero => simp [enumAssign, List.lookup]
    | succ j =>
      have hj : j < rest.length := by simpa using hi
      have hget : (a :: rest).get ⟨j + 1, hi⟩ = rest.get ⟨j, hj⟩ := rfl
      rw [hget]
      have htail := ih (List.nodup_cons.mp hnd).2 (fun i => f (i + 1)) j hj
      generalize hx : rest.get ⟨j, hj⟩ = x at htail ⊢
      have hmem : x ∈ rest := hx ▸ rest.get_mem j hj
      have hne : x ≠ a := fun hc => (List.nodup_cons.mp hnd).1 (hc ▸ hmem)
      have hbeq : (x == a) = false := beq_false_of_ne hne
      simpa [enumAssign, List.lookup, hbeq] using htail

theorem lookup_enumAssign_eq_none {l : List String} (f : Nat → GridData)
    (id : String) (h : id ∉ l) :
    (enumAssign f l).lookup id = none := by
  induction l generalizing f with
  | nil => simp [enumAssign]
  | cons a rest ih =>
    have hne : id ≠ a := fun hc => h (hc ▸ List.mem_cons_self a rest)
    have hbeq : (id == a) = false := beq_false_of_ne hne
    simp only [enumAssign, List.lookup, hbeq]
    exact ih _ (fun hc => h (List.mem_cons_of_mem a hc))

theorem lookup_enumAssign_isSome {l : List String} (f : Nat → GridData)
    (id : String) (h : id ∈ l) :
    ((enumAssign f l).lookup id).isSome := by
  induction l generalizing f with
  | nil => simp at h
  | cons a rest ih =>
    by_cases hid : id = a
    · subst hid; simp [enumAssign, List.lookup]
    · have hbeq : (id == a) = false := beq_false_of_ne hid
      have hmem : id ∈ rest := by
        rcases List.mem_cons.mp h with h' | h'
        · exact absurd h' hid
        · exact h'
      simpa [enumAssign, List.lookup, hbeq] using ih (fun i => f (i + 1)) hmem

theorem lookup_layoutAssignments_eq_none (mode : SelectedPanelsLayoutMode)
    (target : Option String) (ids : List String) (id : String) (h : id ∉ ids) :
    (layoutAssignments mode target ids).lookup id = none := by
  cases ids with
  | nil => cases mode <;> simp [layoutAssignments]
  | cons top rest =>
    have hne : id ≠ top := fun hc => h (hc ▸ List.mem_cons_self top rest)
    have hbeq : (id == top) = false := beq_false_of_ne hne
    have hrest : id ∉ rest := fun hc => h (List.mem_cons_of_mem top hc)
    cases mode <;>
      simp [layoutAssignments, List.lookup, hbeq,
        lookup_enumAssign_eq_none _ _ hrest,
        lookup_enumAssign_eq_none _ _ h]

theorem lookup_layoutAssignments_isSome (mode : SelectedPanelsLayoutMode)
    (target : Option String) (ids : List String) (id : String) (h : id ∈ ids) :
    ((layoutAssignments mode target ids).lookup id).isSome := by
  cases ids with
  | nil => simp at h
  | cons top rest =>
    by_cases hid : id = top
    · subst hid
      cases mode <;> simp [layoutAssignments, enumAssign, List.lookup]
    · have hbeq : (id == top) = false := beq_false_of_ne hid
      have hmem : id ∈ rest := by
        rcases List.mem_cons.mp h with h' | h'
        · exact absurd h' hid
        · exact h'
      cases mode <;>
        simp [layoutAssignments, List.lookup, hbeq,
          lookup_enumAssign_isSome _ _ hmem,
          lookup_enumAssign_isSome _ _ h]

theorem panelPosLe_trans (panels : List (String × DashboardPanel)) (a b c : String)
    (hab : panelPosLe panels a b = true) (hbc : panelPosLe panels b c = true) :
    panelPosLe panels a c = true := by
  simp only [panelPosLe, decide_eq_true_eq] at hab hbc ⊢
  omega

theorem panelPosLe_total (panels : List (String × DashboardPanel)) (a b : String) :
    (panelPosLe panels a b || panelPosLe panels b a) = true := by
  simp only [panelPosLe, Bool.or_eq_true, decide_eq_true_eq]
  omega

theorem lookup_isSome_of_mem_keys (panels : List (String × DashboardPanel))
    (id : String) (h : id ∈ panels.map Prod.fst) :
    (panels.lookup id).isSome := by
  induction panels with
  | nil => simp at h
  | cons e rest ih =>
    obtain ⟨k, p⟩ := e
    by_cases hid : id = k
    · subst hid; simp [List.lookup]
    · have hbeq : (id == k) = false := beq_false_of_ne hid
      have hmem : id ∈ rest.map Prod.fst := by
        rcases List.mem_cons.mp h with h' | h'
        · exact absurd h' hid
        · exact h'
      simpa [List.lookup, hbeq] using ih hmem

theorem mem_sortedSelectedIds (layout : DashboardLayout) (sel : List String) (id : String) :
    id ∈ sortedSelectedIds layout sel ↔ id ∈ filteredSelectedIds layout sel :=
  (List.perm_insertionSort _ _).mem_iff

theorem nodup_sortedSelectedIds (layout : DashboardLayout) (sel : List String)
    (hnd : sel.Nodup) : (sortedSelectedIds layout sel).Nodup :=
  ((List.perm_insertionSort _ _).nodup_iff).mpr (hnd.filter _)

/-- C5: `applySelectedPanelsLayout` first drops selected ids that are not
keys of `layout.panels` (the result only depends on the filtered list), and
when the filtered list is empty it returns the input layout itself — in
particular the empty selection is a no-op for every layout and mode. -/
theorem applySelectedPanelsLayout_empty_selection_noop :
    (∀ (layout : DashboardLayout) (mode : SelectedPanelsLayoutMode),
      applySelectedPanelsLayout layout [] mode = layout) ∧
    (∀ (layout : DashboardLayout) (sel : List String) (mode : SelectedPanelsLayoutMode),
      applySelectedPanelsLayout layout sel mode =
        applySelectedPanelsLayout layout (filteredSelectedIds layout sel) mode) ∧
    (∀ (layout : DashboardLayout) (sel : List String) (mode : SelectedPanelsLayoutMode),
      filteredSelectedIds layout sel = [] →
        applySelectedPanelsLayout layout sel mode = layout) := by
  refine ⟨fun layout mode => ?_, fun layout sel mode => ?_, fun layout sel mode h => ?_⟩
  · simp [applySelectedPanelsLayout, sortedSelectedIds, filteredSelectedIds,
      sortPanelIdsByPosition, List.insertionSort]
  · have hff : filteredSelectedIds layout (filteredSelectedIds layout sel) =
        filteredSelectedIds layout sel := by
      simp [filteredSelectedIds, List.filter_filter]
    unfold applySelectedPanelsLayout sortedSelectedIds
    rw [hff]
  · unfold applySelectedPanelsLayout sortedSelectedIds
    rw [h]
    simp [sortPanelIdsByPosition, List.insertionSort]

/-- Witness for C5 at a concrete layout and a selection whose ids are all
unknown (the filtered list is empty). -/
theorem applySelectedPanelsLayout_empty_selection_noop_witness :
    filteredSelectedIds
        ⟨[("a", ⟨"lens", ⟨0, 0, 1, 1, none⟩⟩)], [], []⟩ ["zz"] = [] ∧
    applySelectedPanelsLayout
        ⟨[("a", ⟨"lens", ⟨0, 0, 1, 1, none⟩⟩)], [], []⟩ ["zz"]
        SelectedPanelsLayoutMode.header =
      ⟨[("a", ⟨"lens", ⟨0, 0, 1, 1, none⟩⟩)], [], []⟩ :=
  ⟨by decide,
    applySelectedPanelsLayout_empty_selection_noop.2.2
      ⟨[("a", ⟨"lens", ⟨0, 0, 1, 1, none⟩⟩)], [], []⟩ ["zz"]
      SelectedPanelsLayoutMode.header (by decide)⟩

/-- C9: `applySelectedPanelsLayout` carries `sections` and `pinnedPanels`
through unchanged, leaves every panel entry whose id is not in the filtered
selection untouched (the lookup is the same as in the input), and replaces
each selected panel's entry by a copy of the input entry in which only the
grid is rewritten (the panel `type` is preserved). -/
theorem applySelectedPanelsLayout_frame_effect :
    ∀ (layout : DashboardLayout) (sel : List String) (mode : SelectedPanelsLayoutMode),
      (applySelectedPanelsLayout layout sel mode).sections = layout.sections ∧
      (applySelectedPanelsLayout layout sel mode).pinnedPanels = layout.pinnedPanels ∧
      (∀ id, id ∉ filteredSelectedIds layout sel →
        (applySelectedPanelsLayout layout sel mode).panels.lookup id =
          layout.panels.lookup id) ∧
      (∀ id, id ∈ filteredSelectedIds layout sel →
        ∃ (p : DashboardPanel) (g : GridData),
          layout.panels.lookup id = some p ∧
          (applySelectedPanelsLayout layout sel mode).panels.lookup id =
            some ⟨p.type, g⟩) := by
  intro layout sel mode
  cases hs : sortedSelectedIds layout sel with
  | nil =>
    have hempty : ∀ id, id ∉ filteredSelectedIds layout sel := by
      intro id hid
      have := (mem_sortedSelectedIds layout sel id).mpr hid
      rw [hs] at this
      simp at this
    refine ⟨by simp [applySelectedPanelsLayout, hs], by simp [applySelectedPanelsLayout, hs],
      fun id _ => by simp [applySelectedPanelsLayout, hs], fun id hid => absurd hid (hempty id)⟩
  | cons top rest =>
    have happly : applySelectedPanelsLayout layout sel mode =
        { layout with
            panels := overwritePanels layout.panels
              (layoutAssignments mode
                (match layout.panels.lookup top with
                  | some p => p.grid.sectionId
                  | none => none) (top :: rest)) } := by
      unfold applySelectedPanelsLayout
      rw [hs]
    refine ⟨by rw [happly], by rw [happly], fun id hid => ?_, fun id hid => ?_⟩
    · have hnotmem : id ∉ top :: rest := by
        rw [← hs]
        exact fun hc => hid ((mem_sortedSelectedIds layout sel id).mp hc)
      rw [happly]
      exact lookup_overwritePanels_none _ _ _
        (lookup_layoutAssignments_eq_none _ _ _ _ hnotmem)
    · have hmem : id ∈ top :: rest := by
        rw [← hs]
        exact (mem_sortedSelectedIds layout sel id).mpr hid
      have hsome := lookup_layoutAssignments_isSome mode
        (match layout.panels.lookup top with
          | some p => p.grid.sectionId
          | none => none) (top :: rest) id hmem
      obtain ⟨g, hg⟩ := Option.isSome_iff_exists.mp hsome
      have hpanel : (layout.panels.lookup id).isSome :=
        (List.mem_filter.mp hid).2
      obtain ⟨p, hp⟩ := Option.isSome_iff_exists.mp hpanel
      refine ⟨p, g, hp, ?_⟩
      rw [happly]
      rw [lookup_overwritePanels_some _ _ _ _ hg, hp]
      rfl

/-- Witness for C9 at a concrete two-panel layout with one selected panel. -/
theorem applySelectedPanelsLayout_frame_effect_witness :
    "b" ∉ filteredSelectedIds
        ⟨[("a", ⟨"lens", ⟨0, 0, 1, 1, none⟩⟩), ("b", ⟨"map", ⟨2, 0, 1, 1, none⟩⟩)],
          [("s", ⟨false, "t", 0⟩)], ["pin"]⟩ ["a"] ∧
    (applySelectedPanelsLayout
        ⟨[("a", ⟨"lens", ⟨0, 0, 1, 1, none⟩⟩), ("b", ⟨"map", ⟨2, 0, 1, 1, none⟩⟩)],
          [("s", ⟨false, "t", 0⟩)], ["pin"]⟩ ["a"]
        SelectedPanelsLayoutMode.grid).panels.lookup "b" =
      ([("a", (⟨"lens", ⟨0, 0, 1, 1, none⟩⟩ : DashboardPanel)),
        ("b", ⟨"map", ⟨2, 0, 1, 1, none⟩⟩)].lookup "b") :=
  ⟨by decide,
    ((applySelectedPanelsLayout_frame_effect
        ⟨[("a", ⟨"lens", ⟨0, 0, 1, 1, none⟩⟩), ("b", ⟨"map", ⟨2, 0, 1, 1, none⟩⟩)],
          [("s", ⟨false, "t", 0⟩)], ["pin"]⟩ ["a"]
        SelectedPanelsLayoutMode.grid).2.2.1 "b" (by decide))⟩

theorem mem_of_getElem_eq_some {α : Type} {l : List α} {i : Nat} {a : α}
    (h : l[i]? = some a) : a ∈ l := by
  have hlen : i < l.length := by
    by_contra hge
    rw [List.getElem?_eq_none (by omega)] at h
    cases h
  rw [List.getElem?_eq_getElem hlen] at h
  exact (Option.some.inj h) ▸ List.getElem_mem hlen

theorem lookup_enumAssign_idx {l : List String} (hnd : l.Nodup) (f : Nat → GridData)
    {i : Nat} {id : String} (hid : l[i]? = some id) :
    (enumAssign f l).lookup id = some (f i) := by
  have hlen : i < l.length := by
    by_contra hge
    rw [List.getElem?_eq_none (by omega)] at hid
    cases hid
  have hget : l.get ⟨i, hlen⟩ = id := by
    rw [List.get_eq_getElem]
    rw [List.getElem?_eq_getElem hlen] at hid
    exact Option.some.inj hid
  rw [← hget]
  exact lookup_enumAssign_get hnd f i hlen

theorem apply_grid_lookup_idx (layout : DashboardLayout) (sel : List String)
    (hnd : sel.Nodup) {i : Nat} {id : String}
    (hid : (sortedSelectedIds layout sel)[i]? = some id) :
    ∃ (p : DashboardPanel) (t : Option String),
      layout.panels.lookup id = some p ∧
      (applySelectedPanelsLayout layout sel SelectedPanelsLayoutMode.grid).panels.lookup id =
        some ⟨p.type, ⟨i % 3 * 16, i / 3 * 10, 16, 10, t⟩⟩ := by
  cases hs : sortedSelectedIds layout sel with
  | nil => rw [hs] at hid; simp at hid
  | cons top rest =>
    rw [hs] at hid
    have hnds : (top :: rest).Nodup := hs ▸ nodup_sortedSelectedIds layout sel hnd
    have hmem : id ∈ top :: rest := mem_of_getElem_eq_some hid
    have hfilter : id ∈ filteredSelectedIds layout sel :=
      (mem_sortedSelectedIds layout sel id).mp (hs ▸ hmem)
    have hpanel : (layout.panels.lookup id).isSome := (List.mem_filter.mp hfilter).2
    obtain ⟨p, hp⟩ := Option.isSome_iff_exists.mp hpanel
    refine ⟨p, (match layout.panels.lookup top with
      | some p => p.grid.sectionId
      | none => none), hp, ?_⟩
    have happly : applySelectedPanelsLayout layout sel SelectedPanelsLayoutMode.grid =
        { layout with
            panels := overwritePanels layout.panels
              (layoutAssignments SelectedPanelsLayoutMode.grid
                (match layout.panels.lookup top with
                  | some p => p.grid.sectionId
                  | none => none) (top :: rest)) } := by
      unfold applySelectedPanelsLayout
      rw [hs]
    rw [happly]
    have hunfold : layoutAssignments SelectedPanelsLayoutMode.grid
        (match layout.panels.lookup top with
          | some p => p.grid.sectionId
          | none => none) (top :: rest) =
        enumAssign (fun i =>
          ⟨i % PRETTIFY_PANELS_PER_ROW * PRETTIFY_PANEL_WIDTH,
            i / PRETTIFY_PANELS_PER_ROW * PRETTIFY_PANEL_HEIGHT,
            PRETTIFY_PANEL_WIDTH, PRETTIFY_PANEL_HEIGHT,
            (match layout.panels.lookup top with
              | some p => p.grid.sectionId
              | none => none)⟩) (top :: rest) := rfl
    have hasg := lookup_enumAssign_idx hnds (fun i =>
        (⟨i % PRETTIFY_PANELS_PER_ROW * PRETTIFY_PANEL_WIDTH,
          i / PRETTIFY_PANELS_PER_ROW * PRETTIFY_PANEL_HEIGHT,
          PRETTIFY_PANEL_WIDTH, PRETTIFY_PANEL_HEIGHT,
          (match layout.panels.lookup top with
            | some p => p.grid.sectionId
            | none => none)⟩ : GridData)) hid
    rw [← hunfold] at hasg
    rw [lookup_overwritePanels_some _ _ _ _ hasg, hp]
    simp [PRETTIFY_PANELS_PER_ROW, PRETTIFY_PANEL_WIDTH, PRETTIFY_PANEL_HEIGHT]

/-- C4: grid mode of `applySelectedPanelsLayout` lays the selected panels
out in `(y, x)` reading order (ties broken by `x`): the `i`-th sorted panel
gets the cell `x = (i % 3) * 16`, `y = (i / 3) * 10`, `w = 16`, `h = 10`,
and no two selected panels receive the same `(x, y)` position. -/
theorem applySelectedPanelsLayout_grid_positions (layout : DashboardLayout)
    (sel : List String) (hnd : sel.Nodup) :
    List.Pairwise (fun a b => panelPosLe layout.panels a b = true)
      (sortedSelectedIds layout sel) ∧
    (∀ i id, (sortedSelectedIds layout sel)[i]? = some id →
      ∃ p : DashboardPanel,
        (applySelectedPanelsLayout layout sel SelectedPanelsLayoutMode.grid).panels.lookup
          id = some p ∧
        p.grid.x = i % 3 * 16 ∧ p.grid.y = i / 3 * 10 ∧ p.grid.w = 16 ∧ p.grid.h = 10) ∧
    (∀ (i j : Nat) (idi idj : String), i ≠ j →
      (sortedSelectedIds layout sel)[i]? = some idi →
      (sortedSelectedIds layout sel)[j]? = some idj →
      ∀ p q : DashboardPanel,
        (applySelectedPanelsLayout layout sel SelectedPanelsLayoutMode.grid).panels.lookup
          idi = some p →
        (applySelectedPanelsLayout layout sel SelectedPanelsLayoutMode.grid).panels.lookup
          idj = some q →
        ¬(p.grid.x = q.grid.x ∧ p.grid.y = q.grid.y)) := by
  refine ⟨?_, fun i id hid => ?_, fun i j idi idj hij hidi hidj p q hp hq => ?_⟩
  · haveI : IsTotal String (fun a b => panelPosLe layout.panels a b = true) :=
      ⟨fun a b => by
        have := panelPosLe_total layout.panels a b
        rcases Bool.or_eq_true_iff.mp this with h | h
        · exact Or.inl h
        · exact Or.inr h⟩
    haveI : IsTrans String (fun a b => panelPosLe layout.panels a b = true) :=
      ⟨fun a b c => panelPosLe_trans layout.panels a b c⟩
    simpa [List.Sorted] using
      List.sorted_insertionSort (fun a b => panelPosLe layout.panels a b = true)
        (filteredSelectedIds layout sel)
  · obtain ⟨p, t, _, hlook⟩ := apply_grid_lookup_idx layout sel hnd hid
    exact ⟨⟨p.type, ⟨i % 3 * 16, i / 3 * 10, 16, 10, t⟩⟩, hlook, rfl, rfl, rfl, rfl⟩
  · obtain ⟨pi, ti, _, hlooki⟩ := apply_grid_lookup_idx layout sel hnd hidi
    obtain ⟨pj, tj, _, hlookj⟩ := apply_grid_lookup_idx layout sel hnd hidj
    rw [hlooki] at hp
    rw [hlookj] at hq
    have hpx : p.grid.x = i % 3 * 16 := by rw [← Option.some.inj hp]
    have hpy : p.grid.y = i / 3 * 10 := by rw [← Option.some.inj hp]
    have hqx : q.grid.x = j % 3 * 16 := by rw [← Option.some.inj hq]
    have hqy : q.grid.y = j / 3 * 10 := by rw [← Option.some.inj hq]
    rintro ⟨hx, hy⟩
    rw [hpx, hqx] at hx
    rw [hpy, hqy] at hy
    omega

/-- Witness for C4 at a concrete layout with two selected panels. -/
theorem applySelectedPanelsLayout_grid_positions_witness :
    List.Pairwise
        (fun a b => panelPosLe
          [("a", (⟨"lens", ⟨0, 5, 1, 1, none⟩⟩ : DashboardPanel)),
            ("b", ⟨"map", ⟨0, 0, 1, 1, none⟩⟩)] a b = true)
        (sortedSelectedIds
          ⟨[("a", ⟨"lens", ⟨0, 5, 1, 1, none⟩⟩), ("b", ⟨"map", ⟨0, 0, 1, 1, none⟩⟩)],
            [], []⟩ ["a", "b"]) ∧
    ∃ p : DashboardPanel,
      (applySelectedPanelsLayout
          ⟨[("a", ⟨"lens", ⟨0, 5, 1, 1, none⟩⟩), ("b", ⟨"map", ⟨0, 0, 1, 1, none⟩⟩)],
            [], []⟩ ["a", "b"] SelectedPanelsLayoutMode.grid).panels.lookup "a" = some p ∧
      p.grid.x = 1 % 3 * 16 ∧ p.grid.y = 1 / 3 * 10 ∧ p.grid.w = 16 ∧ p.grid.h = 10 := by
  refine ⟨(applySelectedPanelsLayout_grid_positions
      ⟨[("a", ⟨"lens", ⟨0, 5, 1, 1, none⟩⟩), ("b", ⟨"map", ⟨0, 0, 1, 1, none⟩⟩)], [], []⟩
      ["a", "b"] (by decide)).1, ?_⟩
  exact (applySelectedPanelsLayout_grid_positions
      ⟨[("a", ⟨"lens", ⟨0, 5, 1, 1, none⟩⟩), ("b", ⟨"map", ⟨0, 0, 1, 1, none⟩⟩)], [], []⟩
      ["a", "b"] (by decide)).2.1 1 "a" (by decide)

theorem apply_header_top_lookup (layout : DashboardLayout) (sel : List String)
    {top : String} (htop : (sortedSelectedIds layout sel).head? = some top) :
    ∃ (p : DashboardPanel) (t : Option String),
      layout.panels.lookup top = some p ∧
      (applySelectedPanelsLayout layout sel SelectedPanelsLayoutMode.header).panels.lookup
        top = some ⟨p.type, ⟨0, 0, 48, 5, t⟩⟩ := by
  cases hs : sortedSelectedIds layout sel with
  | nil => rw [hs] at htop; cases htop
  | cons top' rest =>
    rw [hs] at htop
    have htop' : top' = top := by
      simpa using htop
    subst htop'
    have hmem : top' ∈ top' :: rest := List.mem_cons_self _ _
    have hfilter : top' ∈ filteredSelectedIds layout sel :=
      (mem_sortedSelectedIds layout sel top').mp (hs ▸ hmem)
    have hpanel : (layout.panels.lookup top').isSome := (List.mem_filter.mp hfilter).2
    obtain ⟨p, hp⟩ := Option.isSome_iff_exists.mp hpanel
    refine ⟨p, (match layout.panels.lookup top' with
      | some p => p.grid.sectionId
      | none => none), hp, ?_⟩
    have happly : applySelectedPanelsLayout layout sel SelectedPanelsLayoutMode.header =
        { layout with
            panels := overwritePanels layout.panels
              (layoutAssignments SelectedPanelsLayoutMode.header
                (match layout.panels.lookup top' with
                  | some p => p.grid.sectionId
                  | none => none) (top' :: rest)) } := by
      unfold applySelectedPanelsLayout
      rw [hs]
    rw [happly]
    have hasg : (layoutAssignments SelectedPanelsLayoutMode.header
        (match layout.panels.lookup top' with
          | some p => p.grid.sectionId
          | none => none) (top' :: rest)).lookup top' =
        some ⟨0, 0, GRID_COLUMN_COUNT, 5,
          (match layout.panels.lookup top' with
            | some p => p.grid.sectionId
            | none => none)⟩ := by
      simp [layoutAssignments, List.lookup]
    rw [lookup_overwritePanels_some _ _ _ _ hasg, hp]
    simp [GRID_COLUMN_COUNT]

theorem apply_header_rest_lookup (layout : DashboardLayout) (sel : List String)
    (hnd : sel.Nodup) {N i : Nat} {id : String}
    (hlen : (sortedSelectedIds layout sel).length = N + 1)
    (hid : (sortedSelectedIds layout sel)[i + 1]? = some id) :
    ∃ (p : DashboardPanel) (t : Option String),
      layout.panels.lookup id = some p ∧
      (applySelectedPanelsLayout layout sel SelectedPanelsLayoutMode.header).panels.lookup
        id = some ⟨p.type, ⟨i * (48 / N), 5,
          if i = N - 1 then 48 - (N - 1) * (48 / N) else 48 / N, 10, t⟩⟩ := by
  cases hs : sortedSelectedIds layout sel with
  | nil => rw [hs] at hid; simp at hid
  | cons top rest =>
    rw [hs] at hid hlen
    have hrestlen : rest.length = N := by simpa using hlen
    have hidr : rest[i]? = some id := by
      rw [← List.getElem?_cons_succ (a := top)]
      exact hid
    have hiN : i < N := by
      have : i < rest.length := by
        by_contra hge
        rw [List.getElem?_eq_none (by omega)] at hidr
        cases hidr
      omega
    have hN : 0 < N := by omega
    have hnds : (top :: rest).Nodup := hs ▸ nodup_sortedSelectedIds layout sel hnd
    have hmemr : id ∈ rest := mem_of_getElem_eq_some hidr
    have hne : id ≠ top := by
      intro hcontra
      exact (List.nodup_cons.mp hnds).1 (hcontra ▸ hmemr)
    have hmem : id ∈ top :: rest := List.mem_cons_of_mem _ hmemr
    have hfilter : id ∈ filteredSelectedIds layout sel :=
      (mem_sortedSelectedIds layout sel id).mp (hs ▸ hmem)
    have hpanel : (layout.panels.lookup id).isSome := (List.mem_filter.mp hfilter).2
    obtain ⟨p, hp⟩ := Option.isSome_iff_exists.mp hpanel
    refine ⟨p, (match layout.panels.lookup top with
      | some p => p.grid.sectionId
      | none => none), hp, ?_⟩
    have happly : applySelectedPanelsLayout layout sel SelectedPanelsLayoutMode.header =
        { layout with
            panels := overwritePanels layout.panels
              (layoutAssignments SelectedPanelsLayoutMode.header
                (match layout.panels.lookup top with
                  | some p => p.grid.sectionId
                  | none => none) (top :: rest)) } := by
      unfold applySelectedPanelsLayout
      rw [hs]
    rw [happly]
    have hunfold : layoutAssignments SelectedPanelsLayoutMode.header
        (match layout.panels.lookup top with
          | some p => p.grid.sectionId
          | none => none) (top :: rest) =
        (top, ⟨0, 0, GRID_COLUMN_COUNT, 5,
          (match layout.panels.lookup top with
            | some p => p.grid.sectionId
            | none => none)⟩) ::
          enumAssign (fun j =>
            ⟨j * (if 0 < rest.length then GRID_COLUMN_COUNT / rest.length
                else GRID_COLUMN_COUNT), 5,
              if j = rest.length - 1 then
                GRID_COLUMN_COUNT -
                  (rest.length - 1) *
                    (if 0 < rest.length then GRID_COLUMN_COUNT / rest.length
                      else GRID_COLUMN_COUNT)
              else
                (if 0 < rest.length then GRID_COLUMN_COUNT / rest.length
                  else GRID_COLUMN_COUNT), 10,
              (match layout.panels.lookup top with
                | some p => p.grid.sectionId
                | none => none)⟩) rest := rfl
    have hbeq : (id == top) = false := beq_false_of_ne hne
    have htail := lookup_enumAssign_idx (List.nodup_cons.mp hnds).2 (fun j =>
        (⟨j * (if 0 < rest.length then GRID_COLUMN_COUNT / rest.length
            else GRID_COLUMN_COUNT), 5,
          if j = rest.length - 1 then
            GRID_COLUMN_COUNT -
              (rest.length - 1) *
                (if 0 < rest.length then GRID_COLUMN_COUNT / rest.length
                  else GRID_COLUMN_COUNT)
          else
            (if 0 < rest.length then GRID_COLUMN_COUNT / rest.length
              else GRID_COLUMN_COUNT), 10,
          (match layout.panels.lookup top with
            | some p => p.grid.sectionId
            | none => none)⟩ : GridData)) hidr
    have hasg : (layoutAssignments SelectedPanelsLayoutMode.header
        (match layout.panels.lookup top with
          | some p => p.grid.sectionId
          | none => none) (top :: rest)).lookup id =
        some ⟨i * (48 / N), 5,
          if i = N - 1 then 48 - (N - 1) * (48 / N) else 48 / N, 10,
          (match layout.panels.lookup top with
            | some p => p.grid.sectionId
            | none => none)⟩ := by
      rw [hunfold]
      simp only [List.lookup, hbeq]
      rw [htail]
      rw [hrestlen]
      simp [GRID_COLUMN_COUNT, if_pos hN]
    rw [lookup_overwritePanels_some _ _ _ _ hasg, hp]
    rfl

theorem header_widths_sum (N : Nat) (hN : 1 ≤ N) :
    (∑ i ∈ Finset.range N,
      if i = N - 1 then 48 - (N - 1) * (48 / N) else 48 / N) = 48 := by
  obtain ⟨M, rfl⟩ : ∃ M, N = M + 1 := ⟨N - 1, by omega⟩
  have h1 : 48 / (M + 1) * (M + 1) ≤ 48 := Nat.div_mul_le_self 48 (M + 1)
  have hq : M * (48 / (M + 1)) ≤ 48 := by
    calc M * (48 / (M + 1)) ≤ (M + 1) * (48 / (M + 1)) :=
          Nat.mul_le_mul_right _ (by omega)
      _ = 48 / (M + 1) * (M + 1) := Nat.mul_comm _ _
      _ ≤ 48 := h1
  rw [Finset.sum_range_succ]
  have hcongr : ∀ x ∈ Finset.range M,
      (if x = M + 1 - 1 then 48 - (M + 1 - 1) * (48 / (M + 1)) else 48 / (M + 1)) =
        48 / (M + 1) := by
    intro x hx
    rw [if_neg]
    have := Finset.mem_range.mp hx
    omega
  rw [Finset.sum_congr rfl hcongr, Finset.sum_const, Finset.card_range]
  simp only [Nat.add_sub_cancel, smul_eq_mul, if_true]
  omega

/-- C3: header mode of `applySelectedPanelsLayout` gives the first
(topmost-leftmost) panel the full-width header cell `x=0, y=0, w=48, h=5`,
and each of the remaining `N` panels the second row `y=5, h=10` at
`x = i * (48 / N)` with width `48 / N`, except the last, which absorbs the
remainder `48 - (N - 1) * (48 / N)`; the `N` second-row widths sum to 48. -/
theorem applySelectedPanelsLayout_header_row (layout : DashboardLayout)
    (sel : List String) (N : Nat) (hN : 1 ≤ N) (hnd : sel.Nodup)
    (hlen : (sortedSelectedIds layout sel).length = N + 1) :
    (∃ top p, (sortedSelectedIds layout sel).head? = some top ∧
      (applySelectedPanelsLayout layout sel SelectedPanelsLayoutMode.header).panels.lookup
        top = some p ∧
      p.grid.x = 0 ∧ p.grid.y = 0 ∧ p.grid.w = 48 ∧ p.grid.h = 5) ∧
    (∀ i, i < N → ∃ id p,
      (sortedSelectedIds layout sel)[i + 1]? = some id ∧
      (applySelectedPanelsLayout layout sel SelectedPanelsLayoutMode.header).panels.lookup
        id = some p ∧
      p.grid.y = 5 ∧ p.grid.h = 10 ∧ p.grid.x = i * (48 / N) ∧
      p.grid.w = (if i = N - 1 then 48 - (N - 1) * (48 / N) else 48 / N)) ∧
    (∑ i ∈ Finset.range N,
      if i = N - 1 then 48 - (N - 1) * (48 / N) else 48 / N) = 48 := by
  refine ⟨?_, fun i hi => ?_, header_widths_sum N hN⟩
  · obtain ⟨top, rest, hs⟩ : ∃ top rest, sortedSelectedIds layout sel = top :: rest := by
      cases hsl : sortedSelectedIds layout sel with
      | nil => rw [hsl] at hlen; simp at hlen
      | cons a l => exact ⟨a, l, rfl⟩
    have htop : (sortedSelectedIds layout sel).head? = some top := by
      rw [hs]
      rfl
    obtain ⟨p, t, _, hlook⟩ := apply_header_top_lookup layout sel htop
    exact ⟨top, ⟨p.type, ⟨0, 0, 48, 5, t⟩⟩, htop, hlook, rfl, rfl, rfl, rfl⟩
  · have hlt : i + 1 < (sortedSelectedIds layout sel).length := by omega
    obtain ⟨id, hid⟩ : ∃ id, (sortedSelectedIds layout sel)[i + 1]? = some id :=
      ⟨_, List.getElem?_eq_getElem hlt⟩
    obtain ⟨p, t, _, hlook⟩ := apply_header_rest_lookup layout sel hnd hlen hid
    exact ⟨id, ⟨p.type, ⟨i * (48 / N), 5,
      (if i = N - 1 then 48 - (N - 1) * (48 / N) else 48 / N), 10, t⟩⟩,
      hid, hlook, rfl, rfl, rfl, rfl⟩

/-- Witness for C3 at a concrete three-panel layout with all panels
selected (so N = 2 second-row panels). -/
theorem applySelectedPanelsLayout_header_row_witness :
    1 ≤ 2 ∧ (["p3", "p1", "p2"] : List String).Nodup ∧
    (sortedSelectedIds
      ⟨[("p1", ⟨"lens", ⟨0, 0, 16, 10, none⟩⟩),
        ("p2", ⟨"lens", ⟨16, 0, 16, 10, none⟩⟩),
        ("p3", ⟨"lens", ⟨0, 10, 16, 10, none⟩⟩)], [], []⟩
      ["p3", "p1", "p2"]).length = 2 + 1 ∧
    (∑ i ∈ Finset.range 2,
      if i = 2 - 1 then 48 - (2 - 1) * (48 / 2) else 48 / 2) = 48 :=
  ⟨by decide, by decide, by decide,
    (applySelectedPanelsLayout_header_row
      ⟨[("p1", ⟨"lens", ⟨0, 0, 16, 10, none⟩⟩),
        ("p2", ⟨"lens", ⟨16, 0, 16, 10, none⟩⟩),
        ("p3", ⟨"lens", ⟨0, 10, 16, 10, none⟩⟩)], [], []⟩
      ["p3", "p1", "p2"] 2 (by decide) (by decide) (by decide)).2.2⟩

theorem prettify_lookup_idx (layout : DashboardLayout)
    (hnd : (layout.panels.map Prod.fst).Nodup) {i : Nat} {id : String}
    (hid : (prettifySortedIds layout)[i]? = some id) :
    ∃ p : DashboardPanel,
      layout.panels.lookup id = some p ∧
      (prettifyDashboard layout).panels.lookup id =
        some ⟨p.type, ⟨i % 3 * 16, i / 3 * 10, 16, 10, none⟩⟩ := by
  have hnds : (prettifySortedIds layout).Nodup :=
    ((List.perm_insertionSort _ _).nodup_iff).mpr hnd
  have hmem : id ∈ prettifySortedIds layout := mem_of_getElem_eq_some hid
  have hkeys : id ∈ layout.panels.map Prod.fst :=
    (List.perm_insertionSort _ _).mem_iff.mp hmem
  obtain ⟨p, hp⟩ := Option.isSome_iff_exists.mp (lookup_isSome_of_mem_keys _ _ hkeys)
  have hasg := lookup_enumAssign_idx hnds (fun i =>
      (⟨i % PRETTIFY_PANELS_PER_ROW * PRETTIFY_PANEL_WIDTH,
        i / PRETTIFY_PANELS_PER_ROW * PRETTIFY_PANEL_HEIGHT,
        PRETTIFY_PANEL_WIDTH, PRETTIFY_PANEL_HEIGHT, none⟩ : GridData)) hid
  refine ⟨p, hp, ?_⟩
  show (overwritePanels layout.panels _).lookup id = _
  rw [lookup_overwritePanels_some _ _ _ _ hasg, hp]
  simp [PRETTIFY_PANELS_PER_ROW, PRETTIFY_PANEL_WIDTH, PRETTIFY_PANEL_HEIGHT]

/-- C10: `prettifyDashboard` reassigns the `i`-th panel in ascending
`(y, x)` order the grid `x = (i % 3) * 16`, `y = (i / 3) * 10`, `w = 16`,
`h = 10` with no `sectionId` (every panel, including panels previously
inside a section, moves to the implicit root section), keeps the panel
`type`, covers every panel of the layout, and leaves the `sections` map
itself (and `pinnedPanels`) unchanged. -/
theorem prettifyDashboard_root_grid_cells (layout : DashboardLayout)
    (hnd : (layout.panels.map Prod.fst).Nodup) :
    (prettifyDashboard layout).sections = layout.sections ∧
    (prettifyDashboard layout).pinnedPanels = layout.pinnedPanels ∧
    (prettifySortedIds layout).Perm (layout.panels.map Prod.fst) ∧
    List.Pairwise (fun a b => panelPosLe layout.panels a b = true)
      (prettifySortedIds layout) ∧
    (∀ (i : Nat) (id : String), (prettifySortedIds layout)[i]? = some id →
      ∃ p : DashboardPanel,
        layout.panels.lookup id = some p ∧
        (prettifyDashboard layout).panels.lookup id =
          some ⟨p.type, ⟨i % 3 * 16, i / 3 * 10, 16, 10, none⟩⟩) := by
  refine ⟨rfl, rfl, List.perm_insertionSort _ _, ?_,
    fun i id hid => prettify_lookup_idx layout hnd hid⟩
  haveI : IsTotal String (fun a b => panelPosLe layout.panels a b = true) :=
    ⟨fun a b => by
      have := panelPosLe_total layout.panels a b
      rcases Bool.or_eq_true_iff.mp this with h | h
      · exact Or.inl h
      · exact Or.inr h⟩
  haveI : IsTrans String (fun a b => panelPosLe layout.panels a b = true) :=
    ⟨fun a b c => panelPosLe_trans layout.panels a b c⟩
  simpa [List.Sorted] using
    List.sorted_insertionSort (fun a b => panelPosLe layout.panels a b = true)
      (layout.panels.map Prod.fst)

/-- Witness for C10 at a concrete layout whose two panels sit in a
section: after prettify both are in the root section (`sectionId = none`). -/
theorem prettifyDashboard_root_grid_cells_witness :
    ∃ p : DashboardPanel,
      ([("a", (⟨"lens", ⟨16, 0, 16, 10, some "s1"⟩⟩ : DashboardPanel)),
        ("b", ⟨"map", ⟨0, 0, 16, 10, some "s1"⟩⟩)] : List (String × DashboardPanel)).lookup
        "b" = some p ∧
      (prettifyDashboard
        ⟨[("a", ⟨"lens", ⟨16, 0, 16, 10, some "s1"⟩⟩),
          ("b", ⟨"map", ⟨0, 0, 16, 10, some "s1"⟩⟩)],
          [("s1", ⟨false, "t", 0⟩)], []⟩).panels.lookup "b" =
        some ⟨p.type, ⟨0 % 3 * 16, 0 / 3 * 10, 16, 10, none⟩⟩ :=
  (prettifyDashboard_root_grid_cells
    ⟨[("a", ⟨"lens", ⟨16, 0, 16, 10, some "s1"⟩⟩),
      ("b", ⟨"map", ⟨0, 0, 16, 10, some "s1"⟩⟩)],
      [("s1", ⟨false, "t", 0⟩)], []⟩ (by decide)).2.2.2.2 0 "b" (by decide)

/-! ### Drag-selection gesture (`DashboardGrid` handlers) -/

/-- A client-coordinate point (`{ x: e.clientX, y: e.clientY }`). -/
structure DragPoint where
  x : Int
  y : Int
deriving Repr, DecidableEq

/-- An axis-aligned rectangle in client coordinates. -/
structure SelRect where
  left : Int
  top : Int
  right : Int
  bottom : Int
deriving Repr, DecidableEq

/-- Embedding of `rectsIntersect`: two rectangles intersect unless one is
entirely to the left/right/above/below the other. -/
def rectsIntersect (sel panel : SelRect) : Bool :=
  !(decide (sel.right < panel.left) || decide (sel.left > panel.right) ||
    decide (sel.bottom < panel.top) || decide (sel.top > panel.bottom))

/-- Embedding of `getPanelsInRect`: the rendered panels (id paired with the
bounding rectangle of its mounted ref, in layout order) whose bounds
intersect the selection rectangle. -/
def getPanelsInRect (panelBounds : List (String × SelRect)) (rect : SelRect) :
    List String :=
  (panelBounds.filter (fun e => rectsIntersect rect e.2)).map Prod.fst

/-- Normalisation of the drag state into a rectangle, as done in `onUp` and
in the preview effect: `left/top` are the min and `right/bottom` the max of
the start and current coordinates. -/
def normalizedRect (s c : DragPoint) : SelRect :=
  ⟨min s.x c.x, min s.y c.y, max s.x c.x, max s.y c.y⟩

/-- State of the drag-selection gesture in `DashboardGrid`: `dragStateRef`
(with `selectionDrag` mirroring it), the persisted `selectedPanelIds$`
value, the `previewSelectedPanelIds` state, and the
`justDidSelectionDragRef` click-suppression flag. -/
structure GridSelectionState where
  dragState : Option (DragPoint × DragPoint)
  selectedPanelIds : List String
  previewSelectedPanelIds : List String
  justDidSelectionDrag : Bool
deriving Repr, DecidableEq

/-- Embedding of the `onUp` listener: when a drag is in progress, commit the
panels intersecting the final rectangle as the new selection, clear the drag
state and the preview set, and arm the click-suppression flag; a pointer-up
without a drag in progress changes nothing. -/
def handleSelectionMouseUp (panelBounds : List (String × SelRect))
    (st : GridSelectionState) : GridSelectionState :=
  match st.dragState with
  | none => st
  | some (s, c) =>
    { dragState := none,
      selectedPanelIds := getPanelsInRect panelBounds (normalizedRect s c),
      previewSelectedPanelIds := [],
      justDidSelectionDrag := true }

/-- Embedding of the preview-recomputation effect: while a drag is live the
preview set is the panels intersecting the current rectangle; without a live
drag it is cleared. -/
def recomputePreview (panelBounds : List (String × SelRect))
    (st : GridSelectionState) : GridSelectionState :=
  match st.dragState with
  | none => { st with previewSelectedPanelIds := [] }
  | some (s, c) =>
    { st with
        previewSelectedPanelIds := getPanelsInRect panelBounds (normalizedRect s c) }

/-- Embedding of `handleGridClick`: outside edit mode nothing happens; a
click right after a selection drag only resets the suppression flag; an
empty selection or a click landing inside a panel changes nothing; otherwise
the selection is cleared. -/
def handleGridClick (editMode : Bool) (targetInsidePanel : Bool)
    (st : GridSelectionState) : GridSelectionState :=
  if !editMode then st
  else if st.justDidSelectionDrag then { st with justDidSelectionDrag := false }
  else if st.selectedPanelIds.isEmpty then st
  else if targetInsidePanel then st
  else { st with selectedPanelIds := [] }

/-- C2 counterexample: with panel `p1` already selected before the gesture
and a drag rectangle that only covers panel `p2`, the committed selection
after pointer-up is exactly `["p2"]` — the previously selected `p1` is not
in it, refuting the claim that the Preview Selection Set is merged into
(rather than replacing) the persisted Selection Set. -/
theorem handleSelectionMouseUp_replaces_selection_counterexample :
    ¬("p1" ∈ (handleSelectionMouseUp [("p2", ⟨0, 0, 10, 10⟩)]
        ⟨some (⟨0, 0⟩, ⟨5, 5⟩), ["p1"], ["p2"], false⟩).selectedPanelIds) := by
  decide

/-- C2 (amended): on pointer-up ending a drag gesture the committed
Selection Set is exactly the set of panels intersecting the final rectangle
— i.e. the final Preview Selection Set — replacing the previous selection;
the drag rectangle and the preview set are cleared, and the immediately
following click only resets the suppression flag, leaving the committed
selection intact. -/
theorem handleSelectionMouseUp_commits_preview_and_suppresses_click :
    ∀ (panelBounds : List (String × SelRect)) (s c : DragPoint)
      (sel prev : List String) (flag : Bool),
      (handleSelectionMouseUp panelBounds ⟨some (s, c), sel, prev, flag⟩).selectedPanelIds =
        getPanelsInRect panelBounds (normalizedRect s c) ∧
      (handleSelectionMouseUp panelBounds ⟨some (s, c), sel, prev, flag⟩).selectedPanelIds =
        (recomputePreview panelBounds
          ⟨some (s, c), sel, prev, flag⟩).previewSelectedPanelIds ∧
      (handleSelectionMouseUp panelBounds ⟨some (s, c), sel, prev, flag⟩).dragState = none ∧
      (handleSelectionMouseUp panelBounds
        ⟨some (s, c), sel, prev, flag⟩).previewSelectedPanelIds = [] ∧
      (handleSelectionMouseUp panelBounds
        ⟨some (s, c), sel, prev, flag⟩).justDidSelectionDrag = true ∧
      (∀ targetInsidePanel : Bool,
        handleGridClick true targetInsidePanel
          (handleSelectionMouseUp panelBounds ⟨some (s, c), sel, prev, flag⟩) =
        { handleSelectionMouseUp panelBounds ⟨some (s, c), sel, prev, flag⟩ with
            justDidSelectionDrag := false }) := by
  intro panelBounds s c sel prev flag
  refine ⟨rfl, rfl, rfl, rfl, rfl, fun targetInsidePanel => rfl⟩

/-! ### Breakdown field selection
(`breakdown_field_name.ts`, `breakdown_field_selector.ts`) -/

/-- JS truthiness of a string: only the empty string is falsy. -/
def jsTruthyStr (s : String) : Bool := s != ""

/-- JS truthiness of a possibly-undefined string. -/
def jsTruthyOpt : Option String → Bool
  | some s => jsTruthyStr s
  | none => false

/-- JS `Map.set` and the object spread-update `{ ...obj, [k]: v }`: an
existing key keeps its position and gets the new value, a new key is
appended. -/
def jsRecordSet {β : Type} (m : List (String × β)) (k : String) (v : β) :
    List (String × β) :=
  if m.any (fun e => e.1 == k) then
    m.map (fun e => if e.1 == k then (k, v) else e)
  else m ++ [(k, v)]

/-- One visualization layer (`VisLayer`): optional arrays are modelled as
lists, since only their first element is ever read. -/
structure VisLayer where
  layerId : Option String
  splitAccessors : List String
  primaryGroups : List String
deriving Repr, DecidableEq

/-- The `visualization` part of the attributes state. -/
structure Visualization where
  layers : Option (List VisLayer)
deriving Repr, DecidableEq

/-- One column of a form-based datasource layer. -/
structure DsColumn where
  label : Option String
  sourceField : Option String
deriving Repr, DecidableEq

/-- One datasource layer (`FormBasedLayer` as far as this module reads it). -/
structure DsLayer where
  indexPatternId : Option String
  columns : List (String × DsColumn)
deriving Repr, DecidableEq

/-- One datasource state (`{ layers?: … }`). -/
structure DsState where
  layers : Option (List (String × DsLayer))
deriving Repr, DecidableEq

/-- The `datasourceStates` record, read at its `formBased` and
`indexpattern` keys. -/
structure DatasourceStates where
  formBased : Option DsState
  indexpattern : Option DsState
deriving Repr, DecidableEq

/-- The `state` part of Lens attributes. -/
structure AttributesState where
  visualization : Option Visualization
  datasourceStates : Option DatasourceStates
deriving Repr, DecidableEq

/-- A saved-object reference (`{ type?, id?, name? }`). -/
structure Reference where
  rtype : Option String
  id : Option String
  name : Option String
deriving Repr, DecidableEq

/-- Lens attributes as read by this module: the state and the references. -/
structure LensAttributes where
  state : Option AttributesState
  references : List Reference
deriving Repr, DecidableEq

/-- Result of `getBreakdownLayerInfo`. -/
structure BreakdownLayerInfo where
  layerId : String
  columnId : String
  indexPatternId : String
deriving Repr, DecidableEq

/-- Reference name used for a formBased layer index pattern. -/
def getLayerReferenceName (layerId : String) : String :=
  "indexpattern-datasource-layer-" ++ layerId

/-- The `for (const layer of layers)` loop of `getBreakdownLayerInfo`: the
first layer with a truthy first split accessor (or primary group) is
examined and the loop breaks — returning its info when layer id, column id
and a resolvable index pattern id are all truthy, `none` otherwise.  Layers
whose first split is absent or falsy (the empty string) are skipped. -/
def breakdownLayerLoop (dsLayers : List (String × DsLayer))
    (references : List Reference) : List VisLayer → Option BreakdownLayerInfo
  | [] => none
  | layer :: restLayers =>
    match layer.splitAccessors.head?.orElse (fun _ => layer.primaryGroups.head?) with
    | some fs =>
      if jsTruthyStr fs then
        let layerId := layer.layerId.getD ""
        let ip0 := (dsLayers.lookup layerId).bind (fun ls => ls.indexPatternId)
        let indexPatternId :=
          if !(jsTruthyOpt ip0) && jsTruthyStr layerId then
            (references.find? (fun r =>
              r.name == some (getLayerReferenceName layerId))).bind (fun r => r.id)
          else ip0
        if jsTruthyStr layerId && jsTruthyStr fs && jsTruthyOpt indexPatternId then
          some ⟨layerId, fs, indexPatternId.getD ""⟩
        else none
      else breakdownLayerLoop dsLayers references restLayers
    | none => breakdownLayerLoop dsLayers references restLayers

/-- Embedding of `getBreakdownLayerInfo`: first breakdown/split dimension
layer info for the formBased (or legacy indexpattern) datasource. -/
def getBreakdownLayerInfo (attributes : LensAttributes) :
    Option BreakdownLayerInfo :=
  match attributes.state with
  | none => none
  | some st =>
    match st.visualization, st.datasourceStates with
    | some vis, some ds =>
      match vis.layers with
      | none => none
      | some layers =>
        if layers.isEmpty then none
        else
          match (ds.formBased.orElse (fun _ => ds.indexpattern)).bind
              (fun s => s.layers) with
          | none => none
          | some dsLayers => breakdownLayerLoop dsLayers attributes.references layers
    | _, _ => none

/-- A field of a data view: raw name and optional display name. -/
structure DataViewField where
  name : String
  displayName : Option String
deriving Repr, DecidableEq

/-- The data view collaborator, reduced to what this module reads: its
field list. -/
structure DataView where
  fields : List DataViewField
deriving Repr, DecidableEq

/-- The external `dataView.getFieldByName`: lookup of a field by its name. -/
def getFieldByName (dv : DataView) (n : String) : Option DataViewField :=
  dv.fields.find? (fun f => f.name == n)

/-- Metadata of one operation group (`operationMetaData`); only
`isBucketed === true` is checked. -/
structure OperationMetaData where
  isBucketed : Option Bool
deriving Repr, DecidableEq

/-- One available operation: a field-based operation carries a field name,
anything else is ignored by this module. -/
inductive OperationDef where
  | fieldOp (field : String)
  | otherOp
deriving Repr, DecidableEq

/-- One entry of `getAvailableOperationsByMetadata`'s result. -/
structure OperationsGroup where
  operationMetaData : OperationMetaData
  operations : List OperationDef
deriving Repr, DecidableEq

/-- The `bucketedFields` map construction of `getBreakdownFieldOptions`:
for every bucketed operation group, every field operation registers
`field ↦ displayName ?? name ?? field` in insertion order (`Map.set`
overwrites in place). -/
def collectBucketedFields (dv : DataView) (groups : List OperationsGroup) :
    List (String × String) :=
  groups.foldl (fun m g =>
    if g.operationMetaData.isBucketed == some true then
      g.operations.foldl (fun m op =>
        match op with
        | .fieldOp fname =>
          jsRecordSet m fname
            (match getFieldByName dv fname with
              | some f => f.displayName.getD f.name
              | none => fname)
        | .otherOp => m) m
    else m) []

/-- One option of the breakdown-field selector. -/
structure BreakdownFieldOption where
  value : String
  label : String
deriving Repr, DecidableEq

/-- Embedding of `getBreakdownFieldOptions`.  External collaborators are
parameters: `lc` is `String.prototype.localeCompare` (negative/zero/positive
becomes an `Ordering`), `dvGet` is `dataViews.get` (a rejection is
`Except.error`, a resolved nullish data view is `Except.ok none`), and
`opsByMetadata` is `getAvailableOperationsByMetadata`.  The entries of the
bucketed-fields map are sorted with
`.sort(([a], [b]) => a.localeCompare(b))` — the comparator destructures the
map keys, i.e. the field values — and mapped to `{ value, label }`.  Any
failure produces `[]`. -/
def getBreakdownFieldOptions (lc : String → String → Ordering)
    (dvGet : String → Except Unit (Option DataView))
    (opsByMetadata : DataView → List OperationsGroup)
    (attributes : LensAttributes) : List BreakdownFieldOption :=
  match getBreakdownLayerInfo attributes with
  | none => []
  | some info =>
    match dvGet info.indexPatternId with
    | .error _ => []
    | .ok none => []
    | .ok (some dv) =>
      ((collectBucketedFields dv (opsByMetadata dv)).insertionSort
          (fun a b => ¬(lc a.1 b.1 = Ordering.gt))).map
        (fun e => ⟨e.1, e.2⟩)

/-- Code-point comparison of character lists, standing in for a concrete
locale collation in counterexamples and witnesses. -/
def charListCompare : List Char → List Char → Ordering
  | [], [] => Ordering.eq
  | [], _ :: _ => Ordering.lt
  | _ :: _, [] => Ordering.gt
  | a :: as, b :: bs =>
    if a.toNat < b.toNat then Ordering.lt
    else if b.toNat < a.toNat then Ordering.gt
    else charListCompare as bs

/-- A concrete locale comparator: code-point order on the strings. -/
def demoLocaleCompare (a b : String) : Ordering :=
  charListCompare a.data b.data

/-- C7 counterexample: with fields `a` (display name `Z`) and `b` (display
name `A`), both offered by a bucketed field operation, the returned options
are `[{value a, label Z}, {value b, label A}]` — sorted by value, with the
labels out of ascending order, refuting the claim that the options are
sorted ascending by label. -/
theorem getBreakdownFieldOptions_label_order_counterexample :
    getBreakdownFieldOptions demoLocaleCompare
        (fun _ => Except.ok (some ⟨[⟨"a", some "Z"⟩, ⟨"b", some "A"⟩]⟩))
        (fun _ => [⟨⟨some true⟩, [OperationDef.fieldOp "b", OperationDef.fieldOp "a"]⟩])
        ⟨some ⟨some ⟨some [⟨some "l1", ["c1"], []⟩]⟩,
          some ⟨some ⟨some [("l1", ⟨some "ip1", []⟩)]⟩, none⟩⟩, []⟩ =
      [⟨"a", "Z"⟩, ⟨"b", "A"⟩] ∧
    ¬ List.Pairwise
        (fun a b : BreakdownFieldOption =>
          ¬(demoLocaleCompare a.label b.label = Ordering.gt))
        (getBreakdownFieldOptions demoLocaleCompare
          (fun _ => Except.ok (some ⟨[⟨"a", some "Z"⟩, ⟨"b", some "A"⟩]⟩))
          (fun _ => [⟨⟨some true⟩, [OperationDef.fieldOp "b", OperationDef.fieldOp "a"]⟩])
          ⟨some ⟨some ⟨some [⟨some "l1", ["c1"], []⟩]⟩,
            some ⟨some ⟨some [("l1", ⟨some "ip1", []⟩)]⟩, none⟩⟩, []⟩) := by
  constructor
  · decide
  · decide

/-- C7 (amended): for every attributes input and every locale comparator
(total and transitive in its non-`gt` relation), `getBreakdownFieldOptions`
returns its `{value, label}` options sorted ascending by VALUE (the raw
field name) under the locale comparator — not by label. -/
theorem getBreakdownFieldOptions_sorted_by_value (lc : String → String → Ordering)
    (htrans : ∀ a b c : String, ¬(lc a b = Ordering.gt) → ¬(lc b c = Ordering.gt) →
      ¬(lc a c = Ordering.gt))
    (htotal : ∀ a b : String, lc a b = Ordering.gt → ¬(lc b a = Ordering.gt))
    (dvGet : String → Except Unit (Option DataView))
    (opsByMetadata : DataView → List OperationsGroup)
    (attributes : LensAttributes) :
    List.Pairwise
      (fun a b : BreakdownFieldOption => ¬(lc a.value b.value = Ordering.gt))
      (getBreakdownFieldOptions lc dvGet opsByMetadata attributes) := by
  unfold getBreakdownFieldOptions
  split
  · exact List.Pairwise.nil
  · split
    · exact List.Pairwise.nil
    · exact List.Pairwise.nil
    · rename_i info heq dv heq2
      haveI : IsTotal (String × String)
          (fun a b => ¬(lc a.1 b.1 = Ordering.gt)) :=
        ⟨fun a b => by
          by_cases h : lc a.1 b.1 = Ordering.gt
          · exact Or.inr (htotal _ _ h)
          · exact Or.inl h⟩
      haveI : IsTrans (String × String)
          (fun a b => ¬(lc a.1 b.1 = Ordering.gt)) :=
        ⟨fun a b c hab hbc => htrans _ _ _ hab hbc⟩
      have hsorted := List.sorted_insertionSort
        (fun a b : String × String => ¬(lc a.1 b.1 = Ordering.gt))
        (collectBucketedFields dv (opsByMetadata dv))
      exact List.Pairwise.map
        (fun e : String × String => (⟨e.1, e.2⟩ : BreakdownFieldOption))
        (fun a b hab => hab) hsorted

/-- Witness for the amended C7 at a concrete comparator and input. -/
theorem getBreakdownFieldOptions_sorted_by_value_witness :
    List.Pairwise
      (fun a b : BreakdownFieldOption =>
        ¬((fun _ _ : String => Ordering.lt) a.value b.value = Ordering.gt))
      (getBreakdownFieldOptions (fun _ _ => Ordering.lt)
        (fun _ => Except.ok (some ⟨[⟨"a", some "Z"⟩, ⟨"b", some "A"⟩]⟩))
        (fun _ => [⟨⟨some true⟩, [OperationDef.fieldOp "b", OperationDef.fieldOp "a"]⟩])
        ⟨some ⟨some ⟨some [⟨some "l1", ["c1"], []⟩]⟩,
          some ⟨some ⟨some [("l1", ⟨some "ip1", []⟩)]⟩, none⟩⟩, []⟩) :=
  getBreakdownFieldOptions_sorted_by_value (fun _ _ => Ordering.lt)
    (fun _ _ _ _ _ => by simp)
    (fun _ _ h => by cases h)
    (fun _ => Except.ok (some ⟨[⟨"a", some "Z"⟩, ⟨"b", some "A"⟩]⟩))
    (fun _ => [⟨⟨some true⟩, [OperationDef.fieldOp "b", OperationDef.fieldOp "a"]⟩])
    ⟨some ⟨some ⟨some [⟨some "l1", ["c1"], []⟩]⟩,
      some ⟨some ⟨some [("l1", ⟨some "ip1", []⟩)]⟩, none⟩⟩, []⟩

/-- The raw datasource layer that `setBreakdownField` resolves for the
breakdown layer id: `state.datasourceStates.(formBased ?? indexpattern)
.layers[layerId]`, `none` at the first missing link. -/
def rawBreakdownLayer (attributes : LensAttributes) (layerId : String) :
    Option DsLayer :=
  match attributes.state with
  | none => none
  | some st =>
    match st.datasourceStates with
    | none => none
    | some ds =>
      match ds.formBased.orElse (fun _ => ds.indexpattern) with
      | none => none
      | some formBased =>
        match formBased.layers with
        | none => none
        | some layers => layers.lookup layerId

/-- Embedding of `setBreakdownField`.  External collaborators are
parameters: `dvGet` is `dataViews.get` and `replaceColumnFn` is
`replaceColumn` applied with `op: 'terms'` (a throw is `Except.error`).
Every failure path — no breakdown layer info, missing raw layer, data view
rejection or nullish resolution, unknown field name, `replaceColumn` throw
— returns the input attributes themselves; only a successful replacement
builds the new attributes, updating the layer under the `formBased` key. -/
def setBreakdownField (dvGet : String → Except Unit (Option DataView))
    (replaceColumnFn : DsLayer → String → DataView → DataViewField → Except Unit DsLayer)
    (attributes : LensAttributes) (fieldName : String) : LensAttributes :=
  match getBreakdownLayerInfo attributes with
  | none => attributes
  | some info =>
    match attributes.state with
    | none => attributes
    | some st =>
      match st.datasourceStates with
      | none => attributes
      | some ds =>
        match ds.formBased.orElse (fun _ => ds.indexpattern) with
        | none => attributes
        | some formBased =>
          match formBased.layers with
          | none => attributes
          | some layers =>
            match layers.lookup info.layerId with
            | none => attributes
            | some rawLayer =>
              match dvGet info.indexPatternId with
              | .error _ => attributes
              | .ok none => attributes
              | .ok (some dv) =>
                match getFieldByName dv fieldName with
                | none => attributes
                | some field =>
                  match replaceColumnFn
                      { rawLayer with
                          indexPatternId := some (rawLayer.indexPatternId.getD info.indexPatternId) }
                      info.columnId dv field with
                  | .error _ => attributes
                  | .ok newLayer =>
                    { attributes with
                        state := some { st with
                          datasourceStates := some { ds with
                            formBased := some { formBased with
                              layers := some
                                (jsRecordSet layers info.layerId newLayer) } } } }


theorem setBreakdownField_cases
    (dvGet : String → Except Unit (Option DataView))
    (replaceColumnFn : DsLayer → String → DataView → DataViewField → Except Unit DsLayer)
    (attributes : LensAttributes) (fieldName : String) :
    setBreakdownField dvGet replaceColumnFn attributes fieldName = attributes ∨
    (∃ info st ds formBased layers rawLayer dv field newLayer,
      getBreakdownLayerInfo attributes = some info ∧
      attributes.state = some st ∧
      st.datasourceStates = some ds ∧
      ds.formBased.orElse (fun _ => ds.indexpattern) = some formBased ∧
      formBased.layers = some layers ∧
      layers.lookup info.layerId = some rawLayer ∧
      dvGet info.indexPatternId = .ok (some dv) ∧
      getFieldByName dv fieldName = some field ∧
      replaceColumnFn
        { rawLayer with
          indexPatternId := some (rawLayer.indexPatternId.getD info.indexPatternId) }
        info.columnId dv field = .ok newLayer) := by
  unfold setBreakdownField
  split
  · exact Or.inl rfl
  rename_i info hinfo
  split
  · exact Or.inl rfl
  rename_i st hst
  split
  · exact Or.inl rfl
  rename_i ds hds
  split
  · exact Or.inl rfl
  rename_i formBased hfb
  split
  · exact Or.inl rfl
  rename_i layers hly
  split
  · exact Or.inl rfl
  rename_i rawLayer hlk
  split
  · exact Or.inl rfl
  · exact Or.inl rfl
  rename_i dv hdv
  split
  · exact Or.inl rfl
  rename_i field hfield
  split
  · exact Or.inl rfl
  rename_i newLayer hrc
  exact Or.inr ⟨info, st, ds, formBased, layers, rawLayer, dv, field, newLayer,
    hinfo, hst, hds, hfb, hly, hlk, hdv, hfield, hrc⟩

/-- C8: `setBreakdownField` returns the input attributes themselves (and
never throws — the embedding is a total function) whenever the breakdown
layer info cannot be extracted, the referenced layer is missing from the
datasource state, the data view cannot be loaded (rejection or nullish
resolution), the field name is not present in the resolved data view's
fields, or the column replacement itself throws; a new attributes object is
produced only by a successful replacement. -/
theorem setBreakdownField_unchanged_on_failure
    (dvGet : String → Except Unit (Option DataView))
    (replaceColumnFn : DsLayer → String → DataView → DataViewField → Except Unit DsLayer)
    (attributes : LensAttributes) (fieldName : String) :
    (getBreakdownLayerInfo attributes = none →
      setBreakdownField dvGet replaceColumnFn attributes fieldName = attributes) ∧
    (∀ info, getBreakdownLayerInfo attributes = some info →
      rawBreakdownLayer attributes info.layerId = none →
      setBreakdownField dvGet replaceColumnFn attributes fieldName = attributes) ∧
    (∀ info, getBreakdownLayerInfo attributes = some info →
      dvGet info.indexPatternId = .error () →
      setBreakdownField dvGet replaceColumnFn attributes fieldName = attributes) ∧
    (∀ info, getBreakdownLayerInfo attributes = some info →
      dvGet info.indexPatternId = .ok none →
      setBreakdownField dvGet replaceColumnFn attributes fieldName = attributes) ∧
    (∀ info dv, getBreakdownLayerInfo attributes = some info →
      dvGet info.indexPatternId = .ok (some dv) →
      getFieldByName dv fieldName = none →
      setBreakdownField dvGet replaceColumnFn attributes fieldName = attributes) ∧
    (∀ info dv field rawLayer0, getBreakdownLayerInfo attributes = some info →
      rawBreakdownLayer attributes info.layerId = some rawLayer0 →
      dvGet info.indexPatternId = .ok (some dv) →
      getFieldByName dv fieldName = some field →
      replaceColumnFn
        { rawLayer0 with
          indexPatternId := some (rawLayer0.indexPatternId.getD info.indexPatternId) }
        info.columnId dv field = .error () →
      setBreakdownField dvGet replaceColumnFn attributes fieldName = attributes) := by
  rcases setBreakdownField_cases dvGet replaceColumnFn attributes fieldName with
    hleft | ⟨info', st, ds, formBased, layers, rawLayer, dv', field', newLayer,
      hinfo, hst, hds, hfb, hly, hlk, hdv, hfield, hrc⟩
  · exact ⟨fun _ => hleft, fun _ _ _ => hleft, fun _ _ _ => hleft, fun _ _ _ => hleft,
      fun _ _ _ _ _ => hleft, fun _ _ _ _ _ _ _ _ _ => hleft⟩
  · have hraw : rawBreakdownLayer attributes info'.layerId = some rawLayer := by
      unfold rawBreakdownLayer
      rw [hst]
      simp only []
      rw [hds]
      simp only []
      rw [hfb]
      simp only []
      rw [hly]
      simp only []
      exact hlk
    refine ⟨fun h1 => ?_, fun info h1 h2 => ?_, fun info h1 h2 => ?_,
      fun info h1 h2 => ?_, fun info dv h1 h2 h3 => ?_,
      fun info dv field rawLayer0 h1 h2 h3 h4 h5 => ?_⟩
    · rw [h1] at hinfo
      cases hinfo
    · rw [h1] at hinfo
      obtain rfl : info = info' := by injection hinfo
      rw [h2] at hraw
      cases hraw
    · rw [h1] at hinfo
      obtain rfl : info = info' := by injection hinfo
      rw [h2] at hdv
      cases hdv
    · rw [h1] at hinfo
      obtain rfl : info = info' := by injection hinfo
      rw [h2] at hdv
      injection hdv with hdv2
      cases hdv2
    · rw [h1] at hinfo
      obtain rfl : info = info' := by injection hinfo
      rw [h2] at hdv
      injection hdv with hdv2
      injection hdv2 with hdv3
      subst hdv3
      rw [h3] at hfield
      cases hfield
    · rw [h1] at hinfo
      obtain rfl : info = info' := by injection hinfo
      rw [h2] at hraw
      injection hraw with hraw2
      subst hraw2
      rw [h3] at hdv
      injection hdv with hdv2
      injection hdv2 with hdv3
      subst hdv3
      rw [h4] at hfield
      injection hfield with hfield2
      subst hfield2
      rw [h5] at hrc
      cases hrc

/-- Witness for C8 at a concrete attributes value with a resolvable
breakdown layer but a field name missing from the data view. -/
theorem setBreakdownField_unchanged_on_failure_witness :
    getBreakdownLayerInfo
        ⟨some ⟨some ⟨some [⟨some "l1", ["c1"], []⟩]⟩,
          some ⟨some ⟨some [("l1", ⟨some "ip1", []⟩)]⟩, none⟩⟩, []⟩ =
      some ⟨"l1", "c1", "ip1"⟩ ∧
    getFieldByName ⟨[⟨"present", none⟩]⟩ "missing" = none ∧
    setBreakdownField (fun _ => Except.ok (some ⟨[⟨"present", none⟩]⟩))
        (fun l _ _ _ => Except.ok l)
        ⟨some ⟨some ⟨some [⟨some "l1", ["c1"], []⟩]⟩,
          some ⟨some ⟨some [("l1", ⟨some "ip1", []⟩)]⟩, none⟩⟩, []⟩ "missing" =
      ⟨some ⟨some ⟨some [⟨some "l1", ["c1"], []⟩]⟩,
        some ⟨some ⟨some [("l1", ⟨some "ip1", []⟩)]⟩, none⟩⟩, []⟩ :=
  ⟨by decide, by decide,
    (setBreakdownField_unchanged_on_failure
        (fun _ => Except.ok (some ⟨[⟨"present", none⟩]⟩))
        (fun l _ _ _ => Except.ok l)
        ⟨some ⟨some ⟨some [⟨some "l1", ["c1"], []⟩]⟩,
          some ⟨some ⟨some [("l1", ⟨some "ip1", []⟩)]⟩, none⟩⟩, []⟩
        "missing").2.2.2.2.1 ⟨"l1", "c1", "ip1"⟩ ⟨[⟨"present", none⟩]⟩
      (by decide) rfl (by decide)⟩
